import Mathlib

/-!
Shallow embedding of BurntSushi's Advent of Code solutions (Rust), covering
the parts of the programs that the specification's claims are about:

* `aoc16` — input acquisition from command-line arguments (`main`),
  `OpNumber::new`, and the 4-register virtual machine (`Op::exec`);
* `aoc19` / `aoc21` — the 6-register virtual machine (`Op::exec`);
* `aoc05` — `reacts`, `react` and `part2`;
* `aoc23` — `Bot::from_str` / `Bots::from_str` (regex-based line parsing)
  and the stdout line structure of `main` / `search`;
* `2018/aoc01-1` — `main` (stdin line summing);
* `aoc09`, `aoc11`, `aoc14` — the embedded-constant programs.

Machine integers are modelled as `Int` (with wrapping applied where the
Rust release build would wrap) or `Nat` for unsigned indices; fallible
Rust code (`Result`) becomes `Except String`; `Option`-like failure
becomes `Option`.
-/

/-! ## Rust primitives shared by several programs -/

/-- Rust `str::parse::<iN>` digit accumulation: `cs` must be one or more
ASCII digits; the value is accumulated in base 10. Returns `none` when
`cs` is empty or holds a non-digit. -/
def rustDigitsVal : List Char → Option Nat
  | [] => none
  | [c] => if c.isDigit then some (c.toNat - 48) else none
  | c :: rest =>
    if c.isDigit then
      match rustDigitsVal rest with
      | none => none
      | some v => some ((c.toNat - 48) * 10 ^ rest.length + v)
    else none

/-- Rust `str::parse` for a signed integer type with range
`[-2^(w-1), 2^(w-1))`: an optional `+`/`-` sign followed by one or more
ASCII digits, rejecting values outside the range (overflow). -/
def rustParseSigned (w : Nat) (s : String) : Option Int :=
  let core : List Char → Bool → Option Int := fun cs neg =>
    match rustDigitsVal cs with
    | none => none
    | some v =>
      let value : Int := if neg then -(v : Int) else (v : Int)
      if -(2 ^ (w - 1) : Int) ≤ value ∧ value < 2 ^ (w - 1) then some value
      else none
  match s.data with
  | '-' :: rest => core rest true
  | '+' :: rest => core rest false
  | cs => core cs false

/-- Rust `str::parse::<i32>`. -/
def rustParseI32 (s : String) : Option Int := rustParseSigned 32 s

/-- Rust `str::parse::<i64>`. -/
def rustParseI64 (s : String) : Option Int := rustParseSigned 64 s

/-- Rust two's-complement wrapping into `iN` (release-mode overflow
semantics): the representative of `x` modulo `2^w` in
`[-2^(w-1), 2^(w-1))`. -/
def wrapSigned (w : Nat) (x : Int) : Int :=
  (x + 2 ^ (w - 1)) % 2 ^ w - 2 ^ (w - 1)

/-- Wrapping `i32` arithmetic result. -/
def wrap32 (x : Int) : Int := wrapSigned 32 x

/-- Wrapping `i64` arithmetic result. -/
def wrap64 (x : Int) : Int := wrapSigned 64 x

/-- Rust `i64 as u8`: the low 8 bits, i.e. the value modulo 256. -/
def rustCastU8 (n : Int) : Nat := (n % 256).toNat

/-- Split a character list at every `'\n'` (the separators are dropped;
a trailing separator yields a trailing empty piece, as in
`str::split('\n')`). -/
def splitNL : List Char → List (List Char)
  | [] => [[]]
  | '\n' :: rest => [] :: splitNL rest
  | c :: rest =>
    match splitNL rest with
    | [] => [[c]]
    | p :: ps => (c :: p) :: ps

/-- Strip one trailing `'\r'`, as Rust's `str::lines` does to each line
that was terminated by `'\n'`. -/
def stripCR (cs : List Char) : List Char :=
  match cs.getLast? with
  | some '\r' => cs.dropLast
  | _ => cs

/-- Rust `str::lines`: split on `'\n'`, drop a final empty piece (the
final line ending is optional), and strip `'\r'` from every
`'\n'`-terminated piece. -/
def rustLines (s : String) : List String :=
  match splitNL s.data with
  | [] => []
  | parts =>
    let init := (parts.dropLast.map stripCR).map List.asString
    match parts.getLast? with
    | none => []
    | some last => if last.isEmpty then init else init ++ [last.asString]

/-- The ambient inputs available to a program: the contents of standard
input, the command-line arguments (index 0 is the program name, as in
`env::args_os`), and the file system as a partial map from path to
contents. -/
structure Env where
  stdin : String
  args : List String
  fs : String → Option String

/-! ## aoc16: `OpNumber::new` and `main`'s input acquisition -/

namespace Aoc16

/-- Source `OpNumber::new` (src/aoc16/src/main.rs:184-192): accepts any `n <= 15`
and stores `n as u8`; errors otherwise. -/
def OpNumber.new (n : Int) : Except String Nat :=
  if n ≤ 15 then .ok (rustCastU8 n)
  else .error "op number is out of bounds"

/-- The input-acquisition phase of aoc16's `main`
(src/aoc16/src/main.rs:15-23): the sample input is read from the file
named by the first command-line argument and the program input from the
file named by the second; a missing argument or an unreadable file is an
error. Standard input is never consulted. -/
def readInputs (env : Env) : Except String (String × String) :=
  match env.args.get? 1 with
  | none => .error "Usage: aoc16 <sample-path> <program-path>"
  | some p1 =>
    match env.fs p1 with
    | none => .error "failed to read sample file"
    | some sampleInput =>
      match env.args.get? 2 with
      | none => .error "Usage: aoc16 <sample-path> <program-path>"
      | some p2 =>
        match env.fs p2 with
        | none => .error "failed to read program file"
        | some programInput => .ok (sampleInput, programInput)

end Aoc16

/-! ## aoc16: the 4-register virtual machine -/

namespace Aoc16

/-- aoc16's `Register` enum: four registers, named `R1`..`R4` in the
source, backing indices 0..3 of the `[i64; 4]` array. -/
inductive Register where
  | R1 | R2 | R3 | R4
  deriving DecidableEq

/-- aoc16's `Registers([i64; 4])`. -/
structure Registers where
  f0 : Int
  f1 : Int
  f2 : Int
  f3 : Int
  deriving DecidableEq

def Registers.get (regs : Registers) : Register → Int
  | .R1 => regs.f0
  | .R2 => regs.f1
  | .R3 => regs.f2
  | .R4 => regs.f3

def Registers.set (regs : Registers) : Register → Int → Registers
  | .R1, v => { regs with f0 := v }
  | .R2, v => { regs with f1 := v }
  | .R3, v => { regs with f2 := v }
  | .R4, v => { regs with f3 := v }

/-- aoc16's `OpKind`: the 16 opcode kinds (src/aoc16/src/main.rs:85-102). -/
inductive OpKind where
  | Addr (a b : Register)
  | Addi (a : Register) (b : Int)
  | Mulr (a b : Register)
  | Muli (a : Register) (b : Int)
  | Banr (a b : Register)
  | Bani (a : Register) (b : Int)
  | Borr (a b : Register)
  | Bori (a : Register) (b : Int)
  | Setr (a : Register)
  | Seti (a : Int)
  | Gtir (a : Int) (b : Register)
  | Gtri (a : Register) (b : Int)
  | Gtrr (a b : Register)
  | Eqir (a : Int) (b : Register)
  | Eqri (a : Register) (b : Int)
  | Eqrr (a b : Register)
  deriving DecidableEq

/-- aoc16's `Op`: an opcode kind with its output register. -/
structure Op where
  output : Register
  kind : OpKind
  deriving DecidableEq

/-- aoc16's `Op::exec` (src/aoc16/src/main.rs:103-127): compute the value
from the kind and the registers, then store it in the output register.
Additions and multiplications wrap as `i64` does in a release build. -/
def Op.exec (op : Op) (regs : Registers) : Registers :=
  let value : Int :=
    match op.kind with
    | .Addr a b => wrap64 (regs.get a + regs.get b)
    | .Addi a b => wrap64 (regs.get a + b)
    | .Mulr a b => wrap64 (regs.get a * regs.get b)
    | .Muli a b => wrap64 (regs.get a * b)
    | .Banr a b => Int.land (regs.get a) (regs.get b)
    | .Bani a b => Int.land (regs.get a) b
    | .Borr a b => Int.lor (regs.get a) (regs.get b)
    | .Bori a b => Int.lor (regs.get a) b
    | .Setr a => regs.get a
    | .Seti a => a
    | .Gtir a b => if a > regs.get b then 1 else 0
    | .Gtri a b => if regs.get a > b then 1 else 0
    | .Gtrr a b => if regs.get a > regs.get b then 1 else 0
    | .Eqir a b => if a = regs.get b then 1 else 0
    | .Eqri a b => if regs.get a = b then 1 else 0
    | .Eqrr a b => if regs.get a = regs.get b then 1 else 0
  regs.set op.output value

end Aoc16

/-! ## aoc19: the 6-register virtual machine -/

namespace Aoc19

/-- aoc19's `Register` enum: six registers `R0`..`R5`. -/
inductive Register where
  | R0 | R1 | R2 | R3 | R4 | R5
  deriving DecidableEq

/-- aoc19's `Registers([i64; 6])`. -/
structure Registers where
  f0 : Int
  f1 : Int
  f2 : Int
  f3 : Int
  f4 : Int
  f5 : Int
  deriving DecidableEq

def Registers.get (regs : Registers) : Register → Int
  | .R0 => regs.f0
  | .R1 => regs.f1
  | .R2 => regs.f2
  | .R3 => regs.f3
  | .R4 => regs.f4
  | .R5 => regs.f5

def Registers.set (regs : Registers) : Register → Int → Registers
  | .R0, v => { regs with f0 := v }
  | .R1, v => { regs with f1 := v }
  | .R2, v => { regs with f2 := v }
  | .R3, v => { regs with f3 := v }
  | .R4, v => { regs with f4 := v }
  | .R5, v => { regs with f5 := v }

/-- aoc19's `OpKind` (src/aoc19/src/main.rs:126-143). -/
inductive OpKind where
  | Addr (a b : Register)
  | Addi (a : Register) (b : Int)
  | Mulr (a b : Register)
  | Muli (a : Register) (b : Int)
  | Banr (a b : Register)
  | Bani (a : Register) (b : Int)
  | Borr (a b : Register)
  | Bori (a : Register) (b : Int)
  | Setr (a : Register)
  | Seti (a : Int)
  | Gtir (a : Int) (b : Register)
  | Gtri (a : Register) (b : Int)
  | Gtrr (a b : Register)
  | Eqir (a : Int) (b : Register)
  | Eqri (a : Register) (b : Int)
  | Eqrr (a b : Register)
  deriving DecidableEq

/-- aoc19's `Op`. -/
structure Op where
  output : Register
  kind : OpKind
  deriving DecidableEq

/-- aoc19's `Op::exec` (src/aoc19/src/main.rs:147-171). -/
def Op.exec (op : Op) (regs : Registers) : Registers :=
  let value : Int :=
    match op.kind with
    | .Addr a b => wrap64 (regs.get a + regs.get b)
    | .Addi a b => wrap64 (regs.get a + b)
    | .Mulr a b => wrap64 (regs.get a * regs.get b)
    | .Muli a b => wrap64 (regs.get a * b)
    | .Banr a b => Int.land (regs.get a) (regs.get b)
    | .Bani a b => Int.land (regs.get a) b
    | .Borr a b => Int.lor (regs.get a) (regs.get b)
    | .Bori a b => Int.lor (regs.get a) b
    | .Setr a => regs.get a
    | .Seti a => a
    | .Gtir a b => if a > regs.get b then 1 else 0
    | .Gtri a b => if regs.get a > b then 1 else 0
    | .Gtrr a b => if regs.get a > regs.get b then 1 else 0
    | .Eqir a b => if a = regs.get b then 1 else 0
    | .Eqri a b => if regs.get a = b then 1 else 0
    | .Eqrr a b => if regs.get a = regs.get b then 1 else 0
  regs.set op.output value

end Aoc19

/-! ## aoc21: the 6-register virtual machine (a verbatim copy of aoc19's) -/

namespace Aoc21

/-- aoc21's `Register` enum: six registers `R0`..`R5`. -/
inductive Register where
  | R0 | R1 | R2 | R3 | R4 | R5
  deriving DecidableEq

/-- aoc21's `Registers([i64; 6])`. -/
structure Registers where
  f0 : Int
  f1 : Int
  f2 : Int
  f3 : Int
  f4 : Int
  f5 : Int
  deriving DecidableEq

def Registers.get (regs : Registers) : Register → Int
  | .R0 => regs.f0
  | .R1 => regs.f1
  | .R2 => regs.f2
  | .R3 => regs.f3
  | .R4 => regs.f4
  | .R5 => regs.f5

def Registers.set (regs : Registers) : Register → Int → Registers
  | .R0, v => { regs with f0 := v }
  | .R1, v => { regs with f1 := v }
  | .R2, v => { regs with f2 := v }
  | .R3, v => { regs with f3 := v }
  | .R4, v => { regs with f4 := v }
  | .R5, v => { regs with f5 := v }

/-- aoc21's `OpKind` (src/aoc21/src/main.rs:120-137). -/
inductive OpKind where
  | Addr (a b : Register)
  | Addi (a : Register) (b : Int)
  | Mulr (a b : Register)
  | Muli (a : Register) (b : Int)
  | Banr (a b : Register)
  | Bani (a : Register) (b : Int)
  | Borr (a b : Register)
  | Bori (a : Register) (b : Int)
  | Setr (a : Register)
  | Seti (a : Int)
  | Gtir (a : Int) (b : Register)
  | Gtri (a : Register) (b : Int)
  | Gtrr (a b : Register)
  | Eqir (a : Int) (b : Register)
  | Eqri (a : Register) (b : Int)
  | Eqrr (a b : Register)
  deriving DecidableEq

/-- aoc21's `Op`. -/
structure Op where
  output : Register
  kind : OpKind
  deriving DecidableEq

/-- aoc21's `Op::exec` (src/aoc21/src/main.rs:141-165). -/
def Op.exec (op : Op) (regs : Registers) : Registers :=
  let value : Int :=
    match op.kind with
    | .Addr a b => wrap64 (regs.get a + regs.get b)
    | .Addi a b => wrap64 (regs.get a + b)
    | .Mulr a b => wrap64 (regs.get a * regs.get b)
    | .Muli a b => wrap64 (regs.get a * b)
    | .Banr a b => Int.land (regs.get a) (regs.get b)
    | .Bani a b => Int.land (regs.get a) b
    | .Borr a b => Int.lor (regs.get a) (regs.get b)
    | .Bori a b => Int.lor (regs.get a) b
    | .Setr a => regs.get a
    | .Seti a => a
    | .Gtir a b => if a > regs.get b then 1 else 0
    | .Gtri a b => if regs.get a > b then 1 else 0
    | .Gtrr a b => if regs.get a > regs.get b then 1 else 0
    | .Eqir a b => if a = regs.get b then 1 else 0
    | .Eqri a b => if regs.get a = b then 1 else 0
    | .Eqrr a b => if regs.get a = regs.get b then 1 else 0
  regs.set op.output value

end Aoc21

/-! ## Translations between the three virtual machines -/

/-- aoc19's registers and aoc21's are the same enum, constructor by
constructor. -/
def regTo21 : Aoc19.Register → Aoc21.Register
  | .R0 => .R0
  | .R1 => .R1
  | .R2 => .R2
  | .R3 => .R3
  | .R4 => .R4
  | .R5 => .R5

/-- aoc19's register file read as aoc21's. -/
def regsTo21 (regs : Aoc19.Registers) : Aoc21.Registers :=
  ⟨regs.f0, regs.f1, regs.f2, regs.f3, regs.f4, regs.f5⟩

/-- aoc19's opcode kinds read as aoc21's: same 16 constructors, same
operands. -/
def kindTo21 : Aoc19.OpKind → Aoc21.OpKind
  | .Addr a b => .Addr (regTo21 a) (regTo21 b)
  | .Addi a b => .Addi (regTo21 a) b
  | .Mulr a b => .Mulr (regTo21 a) (regTo21 b)
  | .Muli a b => .Muli (regTo21 a) b
  | .Banr a b => .Banr (regTo21 a) (regTo21 b)
  | .Bani a b => .Bani (regTo21 a) b
  | .Borr a b => .Borr (regTo21 a) (regTo21 b)
  | .Bori a b => .Bori (regTo21 a) b
  | .Setr a => .Setr (regTo21 a)
  | .Seti a => .Seti a
  | .Gtir a b => .Gtir a (regTo21 b)
  | .Gtri a b => .Gtri (regTo21 a) b
  | .Gtrr a b => .Gtrr (regTo21 a) (regTo21 b)
  | .Eqir a b => .Eqir a (regTo21 b)
  | .Eqri a b => .Eqri (regTo21 a) b
  | .Eqrr a b => .Eqrr (regTo21 a) (regTo21 b)

/-- aoc19's instructions read as aoc21's. -/
def opTo21 (op : Aoc19.Op) : Aoc21.Op :=
  ⟨regTo21 op.output, kindTo21 op.kind⟩

/-- aoc16's four registers embedded into aoc19's six, by array index:
aoc16 names its registers `R1`..`R4` but they back indices 0..3, exactly
as aoc19's `R0`..`R3` do. -/
def regTo19 : Aoc16.Register → Aoc19.Register
  | .R1 => .R0
  | .R2 => .R1
  | .R3 => .R2
  | .R4 => .R3

/-- A 4-register file extended to 6 registers with arbitrary values in
the two extra registers. -/
def regsTo19 (regs : Aoc16.Registers) (v4 v5 : Int) : Aoc19.Registers :=
  ⟨regs.f0, regs.f1, regs.f2, regs.f3, v4, v5⟩

/-- A 6-register file restricted to its first four registers. -/
def regsTo16 (regs : Aoc19.Registers) : Aoc16.Registers :=
  ⟨regs.f0, regs.f1, regs.f2, regs.f3⟩

/-- aoc16's opcode kinds read as aoc19's: same 16 constructors, the
register operands embedded by index. -/
def kindTo19 : Aoc16.OpKind → Aoc19.OpKind
  | .Addr a b => .Addr (regTo19 a) (regTo19 b)
  | .Addi a b => .Addi (regTo19 a) b
  | .Mulr a b => .Mulr (regTo19 a) (regTo19 b)
  | .Muli a b => .Muli (regTo19 a) b
  | .Banr a b => .Banr (regTo19 a) (regTo19 b)
  | .Bani a b => .Bani (regTo19 a) b
  | .Borr a b => .Borr (regTo19 a) (regTo19 b)
  | .Bori a b => .Bori (regTo19 a) b
  | .Setr a => .Setr (regTo19 a)
  | .Seti a => .Seti a
  | .Gtir a b => .Gtir a (regTo19 b)
  | .Gtri a b => .Gtri (regTo19 a) b
  | .Gtrr a b => .Gtrr (regTo19 a) (regTo19 b)
  | .Eqir a b => .Eqir a (regTo19 b)
  | .Eqri a b => .Eqri (regTo19 a) b
  | .Eqrr a b => .Eqrr (regTo19 a) (regTo19 b)

/-- aoc16's instructions read as aoc19's. -/
def opTo19 (op : Aoc16.Op) : Aoc19.Op :=
  ⟨regTo19 op.output, kindTo19 op.kind⟩

/-! ## aoc05: polymer reaction (`reacts`, `react`, `part2`)

Polymers are byte strings; we model them as lists of byte values
(`List Nat`). Removing an ASCII character from a UTF-8 string is removing
exactly the bytes with that value. -/

namespace Aoc05

/-- aoc05's `reacts` (src/aoc05/src/main.rs:71-77): two units react when
their byte values differ by exactly 32 (opposite cases of one letter). -/
def reacts (b1 b2 : Nat) : Bool :=
  if b1 < b2 then b2 - b1 == 32 else b1 - b2 == 32

/-- One pass of the loop inside aoc05's `react`
(src/aoc05/src/main.rs:43-58): scan left to right, dropping each adjacent
reacting pair and keeping everything else; the flag records whether any
pair reacted during the pass (the `reacted` variable). The source's
trailing `if i == polymer.len()` push of the last byte is the `[a]`
case. -/
def onePass : List Nat → List Nat × Bool
  | [] => ([], false)
  | [a] => ([a], false)
  | a :: b :: rest =>
    if reacts a b then ((onePass rest).1, true)
    else
      let p := onePass (b :: rest)
      (a :: p.1, p.2)

/-- A pass that found no reacting pair copies its input unchanged. -/
theorem onePass_false_eq (l : List Nat) (h : (onePass l).2 = false) :
    (onePass l).1 = l := by
  induction l using onePass.induct with
  | case1 => simp [onePass]
  | case2 a => simp [onePass]
  | case3 a b rest hr ih =>
    simp only [onePass, hr, if_true] at h
    exact Bool.noConfusion h
  | case4 a b rest hr ih =>
    simp only [onePass, hr] at h ⊢
    simp_all

/-- A pass never lengthens the polymer. -/
theorem onePass_length_le (l : List Nat) : (onePass l).1.length ≤ l.length := by
  induction l using onePass.induct with
  | case1 => simp [onePass]
  | case2 a => simp [onePass]
  | case3 a b rest hr ih =>
    simp only [onePass, hr, if_true]
    simp only [List.length_cons] at ih ⊢
    omega
  | case4 a b rest hr ih =>
    simp only [onePass, hr, if_neg, Bool.false_eq_true, not_false_iff]
    simp only [List.length_cons] at ih ⊢
    omega

/-- A pass that reacted dropped at least one pair, so it shortens the
polymer; this bounds the recursion in `react`. -/
theorem onePass_true_lt (l : List Nat) (h : (onePass l).2 = true) :
    (onePass l).1.length < l.length := by
  induction l using onePass.induct with
  | case1 => simp [onePass] at h
  | case2 a => simp [onePass] at h
  | case3 a b rest hr ih =>
    simp only [onePass, hr, if_true]
    have := onePass_length_le rest
    simp only [List.length_cons] at this ⊢
    omega
  | case4 a b rest hr ih =>
    simp only [onePass, hr] at h ⊢
    simp only [Bool.false_eq_true, if_false] at h ⊢
    have := ih h
    simp only [List.length_cons] at this ⊢
    omega

/-- aoc05's `react` (src/aoc05/src/main.rs:39-67): run passes until one
finds no reacting pair, then return that pass's output. -/
def react (l : List Nat) : List Nat :=
  let p := onePass l
  if p.2 then react p.1 else p.1
termination_by l.length
decreasing_by exact onePass_true_lt l (by assumption)

/-- Unfolding equation for `react`. -/
theorem react_eq (l : List Nat) :
    react l = if (onePass l).2 then react (onePass l).1 else (onePass l).1 := by
  rw [react]

/-- A polymer is inert when no two adjacent units react. -/
def isInert : List Nat → Bool
  | [] => true
  | [_] => true
  | a :: b :: rest => !reacts a b && isInert (b :: rest)

/-- Rust `str::replace(c, "")` on a byte string: drop every byte equal to
the removed ASCII character. -/
def rustReplaceRemove (polymer : List Nat) (unit : Nat) : List Nat :=
  polymer.filter (fun c => c != unit)

/-- The `cleansed` polymer of aoc05's `part2`
(src/aoc05/src/main.rs:26-28): both cases of letter `b` removed
(`unit1 = b`, `unit2 = b + 32`). -/
def cleansed (polymer : List Nat) (b : Nat) : List Nat :=
  rustReplaceRemove (rustReplaceRemove polymer b) (b + 32)

/-- The range `(b'A'..=b'Z')` collected: the byte values 65..90 of the 26 unit
types. -/
def unitTypes : List Nat := (List.range 26).map (fun i => 65 + i)

/-- aoc05's `part2` map-reduce (src/aoc05/src/main.rs:22-36), with the
scheduling of rayon's parallel iterator made explicit: `order` is the
order in which the reduction consumes the 26 mapped values (any
permutation of `unitTypes`). Each unit type is mapped to the reacted
length of the polymer with that type removed; the reduction is `min`,
and `unwrap_or` supplies the polymer's length when there are no values. -/
def part2 (polymer : List Nat) (order : List Nat) : Nat :=
  ((order.map (fun b => (react (cleansed polymer b)).length)).min?).getD
    polymer.length

/-- The claim's sequential description of `part2`: the minimum over the
26 unit types (in declaration order) of the reacted length with both
cases of that type removed, defaulting to the polymer's length when the
set of unit types contributes no value. -/
def part2Spec (polymer : List Nat) : Nat :=
  ((unitTypes.map
      (fun b => (react (cleansed polymer b)).length)).min?).getD
    polymer.length

end Aoc05

/-! ## aoc23: `Bot::from_str`, `Bots::from_str` and `main`'s stdout lines -/

namespace Aoc23

/-- aoc23's `Coordinate` (`x`, `y`, `z` are `i32`). -/
structure Coordinate where
  x : Int
  y : Int
  z : Int
  deriving DecidableEq

/-- aoc23's `Bot`: a position and an `i64` radius. -/
structure Bot where
  pos : Coordinate
  radius : Int
  deriving DecidableEq

/-- The regex crate's `\s` class, restricted to ASCII: space, tab, line
feed, vertical tab, form feed, carriage return. -/
def rsWhitespace (c : Char) : Bool :=
  c = ' ' || c = '\t' || c = '\n' || c = '\x0b' || c = '\x0c' || c = '\r'

/-- Match a literal piece of the pattern, returning the rest of the
input. -/
def matchLit : List Char → List Char → Option (List Char)
  | [], cs => some cs
  | _ :: _, [] => none
  | p :: ps, c :: cs => if p = c then matchLit ps cs else none

/-- Match `[0-9]+` greedily (the following pattern character is never a
digit, so greedy matching is exact): the captured digits and the rest. -/
def matchDigits (cs : List Char) : Option (List Char × List Char) :=
  let digits := cs.takeWhile Char.isDigit
  if digits.isEmpty then none else some (digits, cs.drop digits.length)

/-- Match `-?[0-9]+`: an optional minus sign followed by one or more
digits. -/
def matchSignedDigits (cs : List Char) : Option (List Char × List Char) :=
  match cs with
  | '-' :: rest =>
    match matchDigits rest with
    | none => none
    | some (digits, rest2) => some ('-' :: digits, rest2)
  | _ => matchDigits cs

/-- Attempt the whole bot pattern
`pos=<(-?[0-9]+),(-?[0-9]+),(-?[0-9]+)>,\s r=([0-9]+)`
(src/aoc23/src/main.rs:199-204) at the start of `cs`, returning the four
captures. -/
def matchBotAt (cs : List Char) : Option (String × String × String × String) := do
  let cs ← matchLit "pos=<".data cs
  let (xcap, cs) ← matchSignedDigits cs
  let cs ← matchLit ",".data cs
  let (ycap, cs) ← matchSignedDigits cs
  let cs ← matchLit ",".data cs
  let (zcap, cs) ← matchSignedDigits cs
  let cs ← matchLit ">,".data cs
  match cs with
  | [] => none
  | w :: cs =>
    if rsWhitespace w then do
      let cs ← matchLit "r=".data cs
      let (rcap, _) ← matchDigits cs
      some (xcap.asString, ycap.asString, zcap.asString, rcap.asString)
    else none

/-- Model of `Regex::captures`: try the pattern at every position, leftmost match
first; anything after the match is ignored. -/
def botCaptures : List Char → Option (String × String × String × String)
  | [] => matchBotAt []
  | c :: rest =>
    match matchBotAt (c :: rest) with
    | some caps => some caps
    | none => botCaptures rest

/-- aoc23's `Bot::from_str` (src/aoc23/src/main.rs:195-219): find the
position/radius pattern anywhere in the line, then parse `x`, `y`, `z`
as `i32` and the radius as `i64` (a capture that overflows its type is a
parse error propagated by `?`). -/
def botFromStr (line : String) : Option Bot := do
  let (xcap, ycap, zcap, rcap) ← botCaptures line.data
  let x ← rustParseI32 xcap
  let y ← rustParseI32 ycap
  let z ← rustParseI32 zcap
  let radius ← rustParseI64 rcap
  some ⟨⟨x, y, z⟩, radius⟩

/-- The line loop of aoc23's `Bots::from_str`
(src/aoc23/src/main.rs:147-153): each line must parse as a bot; the first
failure aborts with an error. -/
def botsLoop : List String → Except String (List Bot)
  | [] => .ok []
  | line :: rest =>
    match botFromStr line with
    | none => .error "failed to parse line"
    | some bot =>
      match botsLoop rest with
      | .error e => .error e
      | .ok bots => .ok (bot :: bots)

/-- aoc23's `Bots::from_str` (src/aoc23/src/main.rs:144-160): parse every
line of the input, then reject an empty collection. -/
def botsFromStr (s : String) : Except String (List Bot) :=
  match botsLoop (rustLines s) with
  | .error e => .error e
  | .ok bots => if bots.isEmpty then .error "found no bots in input" else .ok bots

/-- Stdout lines produced by `search` (src/aoc23/src/main.rs:99-110): one
progress `println!` per origin index divisible by 100. The coordinates
sampled are random, but the number of lines printed is not: the loop
runs once per origin. -/
def progressLineCount (norigins : Nat) : Nat :=
  (List.range norigins).countP (fun i => i % 100 == 0)

/-- Function `search` samples 10000 surface points per bot
(src/aoc23/src/main.rs:67-71), so `origins` has `10000 * nbots`
entries. -/
def originsCount (nbots : Nat) : Nat := 10000 * nbots

/-- Stdout lines of a successful aoc23 run (src/aoc23/src/main.rs:20-53):
the `nanobots in range` line, then `search`'s progress lines, then the
`BEST:` line and the `shortest distance` line. -/
def mainLineCount (nbots : Nat) : Nat :=
  1 + progressLineCount (originsCount nbots) + 2

end Aoc23

/-! ## 2018/aoc01-1: `main` -/

namespace Aoc01v1

/-- The line-summing loop of 2018/aoc01-1's `main`
(src/2018/aoc01-1/src/main.rs:5-15): each stdin line is parsed as an
`i32` (a parse failure aborts the whole run via `?`) and added to the
running frequency. -/
def mainLoop (freq : Int) : List String → Except String Int
  | [] => .ok freq
  | line :: rest =>
    match rustParseI32 line with
    | none => .error "invalid digit found in string"
    | some change => mainLoop (wrap32 (freq + change)) rest

/-- Program 2018/aoc01-1's `main`, returning the lines printed to stdout paired
with `main`'s own `Result`: the single answer line is printed only after
every line of input has been parsed and summed. -/
def main (stdinLines : List String) : List String × Except String Unit :=
  match mainLoop 0 stdinLines with
  | .error e => ([], .error e)
  | .ok freq => ([toString freq], .ok ())

end Aoc01v1

/-! ## aoc09: marble game (embedded constants 418 players, last marble
70769 / 7076900) -/

namespace Aoc09

/-- aoc09's `Marble`: a value and the ids of its neighbours in the cyclic
list. -/
structure Marble where
  value : Nat
  prev : Nat
  next : Nat

/-- aoc09's `Circle`: the marble arena and the id of the current
marble. -/
structure Circle where
  marbles : Array Marble
  current : Nat

/-- Source `Circle::new`: one marble of value 0 linked to itself. -/
def Circle.new : Circle := ⟨#[⟨0, 0, 0⟩], 0⟩

end Aoc09

/-! ## aoc11: fuel-cell grid (embedded constants serial 2866, size 300) -/

namespace Aoc11

/-- Constant `GRID_SIZE` (src/aoc11/src/main.rs:8). -/
def gridSize : Int := 300

/-- aoc11's `Grid`: a `GRID_SIZE × GRID_SIZE` power array. -/
structure Grid where
  power : Array (Array Int)

/-- Source `Grid::new(GRID_SIZE)`. -/
def Grid.new : Grid := ⟨Array.mkArray 300 (Array.mkArray 300 0)⟩

/-- Source `Grid::set` (src/aoc11/src/main.rs:92-94): write cell `(x, y)`,
1-based. -/
def Grid.set (g : Grid) (x y p : Int) : Grid :=
  let row := g.power.getD (x - 1).toNat #[]
  ⟨g.power.setD (x - 1).toNat (row.setD (y - 1).toNat p)⟩

/-- Source `Grid::get` (src/aoc11/src/main.rs:96-103): `some` of the cell when
`(x, y)` lies on the grid, `none` otherwise. -/
def Grid.get (g : Grid) (x y : Int) : Option Int :=
  let x := x - 1
  let y := y - 1
  if 0 ≤ x ∧ x < gridSize ∧ 0 ≤ y ∧ y < gridSize then
    some ((g.power.getD x.toNat #[]).getD y.toNat 0)
  else none

end Aoc11

/-! ## aoc14: recipe scores (embedded constants 110201 and 110201's
digits) -/

namespace Aoc14

/-- aoc14's `Recipes`: the elves' current positions and the score
list. -/
structure Recipes where
  elves : List Nat
  scores : List Nat

/-- Source `Recipes::new` (src/aoc14/src/main.rs:51-53). -/
def Recipes.new : Recipes := ⟨[0, 1], [3, 7]⟩

end Aoc14

/-! ## Helper lemmas -/

/-- The function `List.min?` only depends on the multiset of elements: permuting the
list leaves the minimum unchanged (this is why rayon's parallel `min`
reduction agrees with the sequential one). -/
theorem min?_perm (l1 l2 : List Nat) (h : l1.Perm l2) : l1.min? = l2.min? := by
  cases h1 : l1.min? with
  | none =>
    rw [List.min?_eq_none_iff] at h1
    subst h1
    rw [eq_comm, List.min?_eq_none_iff]
    exact h.nil_eq.symm
  | some m =>
    rw [List.min?_eq_some_iff'] at h1
    rw [eq_comm, List.min?_eq_some_iff']
    exact ⟨h.mem_iff.mp h1.1, fun b hb => h1.2 b (h.mem_iff.mpr hb)⟩

/-- Reading a register other than the one just written sees the old
value (aoc16's 4-register file). -/
theorem get_set_ne16 (regs : Aoc16.Registers) (r r' : Aoc16.Register)
    (v : Int) (h : r ≠ r') :
    (regs.set r' v).get r = regs.get r := by
  cases r <;> cases r' <;> first | rfl | exact absurd rfl h

/-- Reading a register other than the one just written sees the old
value (aoc19's 6-register file). -/
theorem get_set_ne19 (regs : Aoc19.Registers) (r r' : Aoc19.Register)
    (v : Int) (h : r ≠ r') :
    (regs.set r' v).get r = regs.get r := by
  cases r <;> cases r' <;> first | rfl | exact absurd rfl h

/-- Reading a register other than the one just written sees the old
value (aoc21's 6-register file). -/
theorem get_set_ne21 (regs : Aoc21.Registers) (r r' : Aoc21.Register)
    (v : Int) (h : r ≠ r') :
    (regs.set r' v).get r = regs.get r := by
  cases r <;> cases r' <;> first | rfl | exact absurd rfl h

/-- Reads commute with the aoc19 → aoc21 register translation. -/
theorem get_regsTo21 (r : Aoc19.Register) (regs : Aoc19.Registers) :
    (regsTo21 regs).get (regTo21 r) = regs.get r := by
  cases r <;> rfl

/-- Writes commute with the aoc19 → aoc21 register translation. -/
theorem set_regsTo21 (r : Aoc19.Register) (v : Int) (regs : Aoc19.Registers) :
    regsTo21 (regs.set r v) = (regsTo21 regs).set (regTo21 r) v := by
  cases r <;> rfl

/-- Reads of the four embedded registers ignore the two extra ones. -/
theorem get_regsTo19 (r : Aoc16.Register) (regs : Aoc16.Registers)
    (v4 v5 : Int) :
    (regsTo19 regs v4 v5).get (regTo19 r) = regs.get r := by
  cases r <;> rfl

/-- Writing one of the four embedded registers and restricting equals
writing in the 4-register file. -/
theorem set_regsTo19 (r : Aoc16.Register) (v : Int) (regs : Aoc16.Registers)
    (v4 v5 : Int) :
    regsTo16 ((regsTo19 regs v4 v5).set (regTo19 r) v) = regs.set r v := by
  cases r <;> rfl

/-- A pass that found no reacting pair certifies inertness: every
adjacent pair of the polymer fails to react. -/
theorem aoc05_onePass_false_inert (l : List Nat)
    (h : (Aoc05.onePass l).2 = false) : Aoc05.isInert l = true := by
  induction l using Aoc05.onePass.induct with
  | case1 => simp [Aoc05.isInert]
  | case2 a => simp [Aoc05.isInert]
  | case3 a b rest hr ih =>
    simp only [Aoc05.onePass, hr, if_true] at h
    exact Bool.noConfusion h
  | case4 a b rest hr ih =>
    simp only [Aoc05.onePass, hr] at h
    simp only [Bool.false_eq_true, if_false] at h
    simp only [Aoc05.isInert, hr, Bool.not_false, Bool.true_and]
    exact ih h

/-- The pass that ends `react`'s loop finds no reacting pair, so running
one more pass over `react`'s output reports no reaction. -/
theorem aoc05_react_onePass_false (l : List Nat) :
    (Aoc05.onePass (Aoc05.react l)).2 = false := by
  rw [Aoc05.react_eq]
  by_cases hp : (Aoc05.onePass l).2 = true
  · simp only [hp, if_true]
    exact aoc05_react_onePass_false (Aoc05.onePass l).1
  · simp only [hp, if_false]
    have h2 : (Aoc05.onePass l).2 = false := Bool.eq_false_iff.mpr hp
    rw [Aoc05.onePass_false_eq l h2]
    exact h2
termination_by l.length
decreasing_by exact Aoc05.onePass_true_lt l hp

/-- Exactly one in every consecutive run of 100 origin indices is a
multiple of 100, so `search` prints one progress line per 100
origins. -/
theorem aoc23_progressLineCount_mul (m : Nat) :
    Aoc23.progressLineCount (100 * m) = m := by
  induction m with
  | zero => rfl
  | succ k ih =>
    have h100 : 100 * (k + 1) = 100 * k + 100 := by ring
    unfold Aoc23.progressLineCount at ih ⊢
    rw [h100, List.range_add, List.countP_append, ih, List.countP_map]
    have hone : List.countP ((fun i => i % 100 == 0) ∘ (fun x => 100 * k + x))
        (List.range 100) = List.countP (fun i => i % 100 == 0)
        (List.range 100) := by
      apply List.countP_congr
      intro a ha
      simp only [Function.comp_apply]
      have : (100 * k + a) % 100 = a % 100 := by omega
      rw [this]
    rw [hone]
    norm_num
    decide

/-- Source `Bots::from_str`'s line loop fails exactly when some line fails to
parse as a bot. -/
theorem aoc23_botsLoop_error_iff (lines : List String) :
    (∃ e, Aoc23.botsLoop lines = .error e)
    ↔ ∃ l ∈ lines, Aoc23.botFromStr l = none := by
  induction lines with
  | nil => simp [Aoc23.botsLoop]
  | cons l rest ih =>
    simp only [Aoc23.botsLoop]
    cases hp : Aoc23.botFromStr l with
    | none =>
      constructor
      · intro _; exact ⟨l, by simp, hp⟩
      · intro _; exact ⟨_, rfl⟩
    | some bot =>
      cases hr : Aoc23.botsLoop rest with
      | error e =>
        constructor
        · intro _
          rcases ih.mp ⟨e, hr⟩ with ⟨l', hl', hpl'⟩
          exact ⟨l', List.mem_cons_of_mem _ hl', hpl'⟩
        · intro _; exact ⟨e, rfl⟩
      | ok bots =>
        constructor
        · rintro ⟨e, he⟩
          exact Except.noConfusion he
        · rintro ⟨l', hl', hpl'⟩
          rcases List.mem_cons.mp hl' with h | h
          · subst h; rw [hp] at hpl'; exact Option.noConfusion hpl'
          · exfalso
            rcases ih.mpr ⟨l', h, hpl'⟩ with ⟨e, he⟩
            rw [hr] at he
            exact Except.noConfusion he

/-- When `Bots::from_str`'s line loop succeeds, its output is exactly
the per-line parses, in order — one bot per input line. -/
theorem aoc23_botsLoop_ok (lines : List String) : ∀ bots,
    Aoc23.botsLoop lines = .ok bots
    → lines.mapM Aoc23.botFromStr = some bots ∧ bots.length = lines.length := by
  induction lines with
  | nil =>
    intro bots h
    simp only [Aoc23.botsLoop] at h
    injection h with h
    subst h
    exact ⟨rfl, rfl⟩
  | cons l rest ih =>
    intro bots h
    simp only [Aoc23.botsLoop] at h
    cases hp : Aoc23.botFromStr l with
    | none => rw [hp] at h; exact Except.noConfusion h
    | some bot =>
      rw [hp] at h
      cases hr : Aoc23.botsLoop rest with
      | error e => rw [hr] at h; exact Except.noConfusion h
      | ok bots' =>
        rw [hr] at h
        injection h with h
        subst h
        rcases ih bots' hr with ⟨hm, hlen⟩
        refine ⟨?_, by simp [hlen]⟩
        rw [List.mapM_cons, hp, hm]
        rfl

/-- Program 2018/aoc01-1's summing loop succeeds exactly when every line parses
as an `i32`. -/
theorem aoc01v1_mainLoop_ok_iff (lines : List String) : ∀ freq : Int,
    (∃ v, Aoc01v1.mainLoop freq lines = .ok v)
    ↔ (∀ l ∈ lines, (rustParseI32 l).isSome = true) := by
  induction lines with
  | nil =>
    intro freq
    simp [Aoc01v1.mainLoop]
  | cons l rest ih =>
    intro freq
    simp only [Aoc01v1.mainLoop]
    cases hp : rustParseI32 l with
    | none =>
      constructor
      · rintro ⟨v, hv⟩
        exact Except.noConfusion hv
      · intro hall
        have := hall l (by simp)
        rw [hp] at this
        simp at this
    | some c =>
      rw [ih (wrap32 (freq + c))]
      constructor
      · intro hall l' hl'
        rcases List.mem_cons.mp hl' with h | h
        · subst h; rw [hp]; rfl
        · exact hall l' h
      · intro hall l' hl'
        exact hall l' (List.mem_cons_of_mem _ hl')

/-! ## The claims -/

/-- C1 counterexample: aoc16 obtains its input from the files named by
its command-line arguments, not from stdin or embedded constants — two
runs with the same stdin but different contents behind the argv-named
paths acquire different inputs. -/
theorem aoc16_reads_argv_named_files :
    Aoc16.readInputs
      ⟨"same stdin", ["aoc16", "sample.txt", "prog.txt"],
        fun p => if p = "sample.txt" then some "A"
          else if p = "prog.txt" then some "B" else none⟩ = .ok ("A", "B")
    ∧ Aoc16.readInputs
      ⟨"same stdin", ["aoc16", "sample.txt", "prog.txt"],
        fun p => if p = "sample.txt" then some "C"
          else if p = "prog.txt" then some "B" else none⟩ = .ok ("C", "B")
    ∧ (("A", "B") : String × String) ≠ ("C", "B") :=
  ⟨rfl, rfl, by decide⟩

/-- C1 (amended): every program except aoc16 reads stdin or embedded
constants; aoc16 reads its sample and program inputs from the files
named by its first and second command-line arguments. -/
theorem aoc16_readInputs_from_argv_files (env : Env) (p1 p2 c1 c2 : String)
    (h1 : env.args.get? 1 = some p1) (h2 : env.args.get? 2 = some p2)
    (hf1 : env.fs p1 = some c1) (hf2 : env.fs p2 = some c2) :
    Aoc16.readInputs env = .ok (c1, c2) := by
  unfold Aoc16.readInputs
  rw [h1]
  simp only []
  rw [hf1]
  simp only []
  rw [h2]
  simp only []
  rw [hf2]

/-- C1 witness: with both arguments present and both files readable,
aoc16's input acquisition succeeds with the two file contents. -/
theorem aoc16_readInputs_from_argv_files_witness :
    Aoc16.readInputs
      ⟨"", ["aoc16", "s", "p"],
        fun q => if q = "s" then some "samples" else some "programs"⟩
      = .ok ("samples", "programs") :=
  aoc16_readInputs_from_argv_files _ "s" "p" "samples" "programs"
    rfl rfl rfl rfl

/-- C2 counterexample: a successful aoc23 run on a valid one-bot input
prints 103 stdout lines (three answer lines plus one progress line per
100 sampled origins), not one or two. -/
theorem aoc23_run_prints_more_than_two_lines :
    Aoc23.botsFromStr "pos=<0,0,0>, r=4" = .ok [⟨⟨0, 0, 0⟩, 4⟩]
    ∧ Aoc23.mainLineCount 1 = 103
    ∧ ¬(Aoc23.mainLineCount 1 = 1 ∨ Aoc23.mainLineCount 1 = 2) := by
  have h : Aoc23.mainLineCount 1
      = 1 + Aoc23.progressLineCount (100 * 100) + 2 := by
    have h1 : (10000 : Nat) * 1 = 100 * 100 := by norm_num
    unfold Aoc23.mainLineCount Aoc23.originsCount
    rw [h1]
  refine ⟨rfl, ?_, ?_⟩
  · rw [h, aoc23_progressLineCount_mul]
  · rw [h, aoc23_progressLineCount_mul]
    omega

/-- C2 (amended): not every program prints one or two answer lines — a
successful aoc23 run prints its three answer lines plus one progress
line per 100 sampled origins, `3 + 100 * nbots` lines in total, always
more than two. -/
theorem aoc23_run_line_count (nbots : Nat) :
    Aoc23.mainLineCount nbots = 3 + 100 * nbots
    ∧ 2 < Aoc23.mainLineCount nbots := by
  have h : Aoc23.mainLineCount nbots
      = 1 + Aoc23.progressLineCount (10000 * nbots) + 2 := rfl
  have h2 : (10000 : Nat) * nbots = 100 * (100 * nbots) := by ring
  rw [h, h2, aoc23_progressLineCount_mul]
  omega

/-- C3: `main` returns a `Result`: for 2018/aoc01-1, `main` returns
`Ok(())` exactly when every stdin line parses, prints nothing when a
parse fails (the error propagates via `?`), and prints the single
answer on success; for aoc16, `main`'s input acquisition returns an
`Err` exactly when an argument is missing or a named file is
unreadable. -/
theorem main_result_error_handling :
    (∀ lines : List String,
        ((Aoc01v1.main lines).2 = .ok ()
          ↔ ∀ l ∈ lines, (rustParseI32 l).isSome = true)
        ∧ ((∃ e, (Aoc01v1.main lines).2 = .error e)
            → (Aoc01v1.main lines).1 = [])
        ∧ (∀ freq, Aoc01v1.mainLoop 0 lines = .ok freq
            → Aoc01v1.main lines = ([toString freq], .ok ())))
    ∧ (∀ env : Env,
        (∃ e, Aoc16.readInputs env = .error e)
        ↔ (env.args.get? 1 = none ∨ env.args.get? 2 = none
            ∨ (∃ p, env.args.get? 1 = some p ∧ env.fs p = none)
            ∨ (∃ p, env.args.get? 2 = some p ∧ env.fs p = none))) := by
  constructor
  · intro lines
    refine ⟨?_, ?_, ?_⟩
    · unfold Aoc01v1.main
      cases hv : Aoc01v1.mainLoop 0 lines with
      | error e =>
        simp only []
        constructor
        · intro h; exact Except.noConfusion h
        · intro hall
          have := (aoc01v1_mainLoop_ok_iff lines 0).mpr hall
          rw [hv] at this
          rcases this with ⟨v, hv2⟩
          exact Except.noConfusion hv2
      | ok freq =>
        simp only []
        constructor
        · intro _
          exact (aoc01v1_mainLoop_ok_iff lines 0).mp ⟨_, hv⟩
        · intro _; trivial
    · unfold Aoc01v1.main
      cases hv : Aoc01v1.mainLoop 0 lines <;> simp
    · intro freq h
      unfold Aoc01v1.main
      rw [h]
  · intro env
    constructor
    · rintro ⟨e, he⟩
      unfold Aoc16.readInputs at he
      split at he
      next h1 => exact Or.inl h1
      next p1 h1 =>
        split at he
        next hf1 => exact Or.inr (Or.inr (Or.inl ⟨p1, h1, hf1⟩))
        next c1 hf1 =>
          split at he
          next h2 => exact Or.inr (Or.inl h2)
          next p2 h2 =>
            split at he
            next hf2 => exact Or.inr (Or.inr (Or.inr ⟨p2, h2, hf2⟩))
            next c2 hf2 => exact Except.noConfusion he
    · intro h
      cases hres : Aoc16.readInputs env with
      | error e => exact ⟨e, rfl⟩
      | ok v =>
        exfalso
        unfold Aoc16.readInputs at hres
        split at hres
        next => exact Except.noConfusion hres
        next p1 h1 =>
          split at hres
          next => exact Except.noConfusion hres
          next c1 hf1 =>
            split at hres
            next => exact Except.noConfusion hres
            next p2 h2 =>
              split at hres
              next => exact Except.noConfusion hres
              next c2 hf2 =>
                rcases h with h | h | ⟨p, hp, hfp⟩ | ⟨p, hp, hfp⟩
                · rw [h1] at h; exact Option.noConfusion h
                · rw [h2] at h; exact Option.noConfusion h
                · rw [h1] at hp
                  injection hp with hpp
                  subst hpp
                  rw [hf1] at hfp
                  exact Option.noConfusion hfp
                · rw [h2] at hp
                  injection hp with hpp
                  subst hpp
                  rw [hf2] at hfp
                  exact Option.noConfusion hfp

/-- C3 witness: a run whose lines all parse prints the summed frequency
and returns `Ok(())`; an aoc16 run with no arguments returns an
`Err`. -/
theorem main_result_error_handling_witness :
    Aoc01v1.main ["+1", "-2"] = ([toString (-1 : Int)], .ok ())
    ∧ (∃ e, Aoc16.readInputs ⟨"", [], fun _ => none⟩ = .error e) :=
  ⟨(main_result_error_handling.1 ["+1", "-2"]).2.2 (-1) rfl,
   (main_result_error_handling.2 ⟨"", [], fun _ => none⟩).mpr (Or.inl rfl)⟩

/-- C4: aoc05's parallel map-reduce in `part2` is equivalent to the
sequential computation — whatever order the parallel reduction consumes
the 26 mapped values in, the result is the minimum over the 26 unit
types of the reacted length with both cases of that type removed,
defaulting to the polymer's length when no value is produced. -/
theorem aoc05_part2_parallel_equiv (polymer order : List Nat)
    (h : order.Perm Aoc05.unitTypes) :
    Aoc05.part2 polymer order = Aoc05.part2Spec polymer := by
  unfold Aoc05.part2 Aoc05.part2Spec
  rw [min?_perm _ _ (h.map _)]

/-- C4 witness: on the polymer `dabAcCaCBAcCcaDA` (as bytes), consuming
the unit types in reverse order yields the sequential result. -/
theorem aoc05_part2_parallel_equiv_witness :
    Aoc05.part2
      [100, 97, 98, 65, 99, 67, 97, 67, 66, 65, 99, 67, 99, 97, 68, 65]
      Aoc05.unitTypes.reverse
    = Aoc05.part2Spec
      [100, 97, 98, 65, 99, 67, 97, 67, 66, 65, 99, 67, 99, 97, 68, 65] :=
  aoc05_part2_parallel_equiv _ _ (List.reverse_perm _)

/-- C5: aoc19's and aoc21's `Op::exec` implement identical instruction
semantics on 6-register states, and aoc16's `Op::exec` implements the
same 16 operations restricted to 4 registers (embedding a 4-register
state into 6 registers, executing with aoc19's semantics, and
restricting back is exactly aoc16's semantics, whatever the two extra
registers hold). -/
theorem vm_exec_agreement :
    (∀ (op : Aoc19.Op) (regs : Aoc19.Registers),
        regsTo21 (op.exec regs) = (opTo21 op).exec (regsTo21 regs))
    ∧ (∀ (op : Aoc16.Op) (regs : Aoc16.Registers) (v4 v5 : Int),
        regsTo16 ((opTo19 op).exec (regsTo19 regs v4 v5)) = op.exec regs) := by
  constructor
  · rintro ⟨out, kind⟩ regs
    cases kind <;>
      simp only [Aoc19.Op.exec, Aoc21.Op.exec, opTo21, kindTo21,
        set_regsTo21, get_regsTo21]
  · rintro ⟨out, kind⟩ regs v4 v5
    cases kind <;>
      simp only [Aoc19.Op.exec, Aoc16.Op.exec, opTo19, kindTo19,
        set_regsTo19, get_regsTo19]

/-- C6: aoc23's `Bots::from_str` returns an error exactly when the input
has no lines or some line fails to match the position/radius pattern (or
its numbers fail to parse); on success it returns one bot per input
line, in order. -/
theorem aoc23_botsFromStr_spec (s : String) :
    ((∃ e, Aoc23.botsFromStr s = .error e)
      ↔ (rustLines s = []
          ∨ ∃ line ∈ rustLines s, Aoc23.botFromStr line = none))
    ∧ (∀ bots, Aoc23.botsFromStr s = .ok bots
        → (rustLines s).mapM Aoc23.botFromStr = some bots ∧ bots ≠ []) := by
  constructor
  · unfold Aoc23.botsFromStr
    cases hl : Aoc23.botsLoop (rustLines s) with
    | error e =>
      constructor
      · intro _
        exact Or.inr ((aoc23_botsLoop_error_iff (rustLines s)).mp ⟨e, hl⟩)
      · intro _; exact ⟨e, rfl⟩
    | ok bots =>
      rcases aoc23_botsLoop_ok (rustLines s) bots hl with ⟨hm, hlen⟩
      by_cases hb : bots.isEmpty
      · simp only [hb, if_true]
        constructor
        · intro _
          left
          have hb2 : bots = [] := List.isEmpty_iff.mp hb
          rw [hb2] at hlen
          exact List.eq_nil_of_length_eq_zero (by simpa using hlen.symm)
        · intro _; exact ⟨_, rfl⟩
      · simp only [hb, if_false]
        constructor
        · rintro ⟨e, he⟩
          exact Except.noConfusion he
        · rintro (h | ⟨line, hline, hpl⟩)
          · exfalso
            rw [h] at hlen
            simp only [List.length_nil, List.length_eq_zero] at hlen
            rw [List.isEmpty_iff] at hb
            exact hb hlen
          · exfalso
            rcases (aoc23_botsLoop_error_iff (rustLines s)).mpr
              ⟨line, hline, hpl⟩ with ⟨e, he⟩
            rw [hl] at he
            exact Except.noConfusion he
  · intro bots h
    unfold Aoc23.botsFromStr at h
    cases hl : Aoc23.botsLoop (rustLines s) with
    | error e => rw [hl] at h; exact Except.noConfusion h
    | ok bots' =>
      rw [hl] at h
      by_cases hb : bots'.isEmpty
      · simp only [hb, if_true] at h
        exact Except.noConfusion h
      · simp only [hb, if_false] at h
        injection h with heq
        subst heq
        rcases aoc23_botsLoop_ok (rustLines s) _ hl with ⟨hm, _⟩
        exact ⟨hm, fun hnil => hb (by simp [hnil])⟩

/-- C6 witness: a well-formed one-line input parses to exactly that
line's bot. -/
theorem aoc23_botsFromStr_spec_witness :
    (rustLines "pos=<1,2,3>, r=4").mapM Aoc23.botFromStr
      = some [⟨⟨1, 2, 3⟩, 4⟩]
    ∧ ([⟨⟨1, 2, 3⟩, 4⟩] : List Aoc23.Bot) ≠ [] :=
  (aoc23_botsFromStr_spec "pos=<1,2,3>, r=4").2 [⟨⟨1, 2, 3⟩, 4⟩] rfl

/-- C8: in all three virtual machines, executing one instruction writes
exactly one register — every register other than the instruction's
output register keeps its value. -/
theorem vm_exec_single_register_frame :
    (∀ (op : Aoc16.Op) (regs : Aoc16.Registers) (r : Aoc16.Register),
        r ≠ op.output → (op.exec regs).get r = regs.get r)
    ∧ (∀ (op : Aoc19.Op) (regs : Aoc19.Registers) (r : Aoc19.Register),
        r ≠ op.output → (op.exec regs).get r = regs.get r)
    ∧ (∀ (op : Aoc21.Op) (regs : Aoc21.Registers) (r : Aoc21.Register),
        r ≠ op.output → (op.exec regs).get r = regs.get r) := by
  refine ⟨fun op regs r h => ?_, fun op regs r h => ?_, fun op regs r h => ?_⟩
  · simp only [Aoc16.Op.exec]
    exact get_set_ne16 regs r op.output _ h
  · simp only [Aoc19.Op.exec]
    exact get_set_ne19 regs r op.output _ h
  · simp only [Aoc21.Op.exec]
    exact get_set_ne21 regs r op.output _ h

/-- C8 witness: a `seti` writing one register leaves another register of
each machine unchanged. -/
theorem vm_exec_single_register_frame_witness :
    ((Aoc16.Op.exec ⟨.R1, .Seti 7⟩ ⟨1, 2, 3, 4⟩).get .R2
      = (⟨1, 2, 3, 4⟩ : Aoc16.Registers).get .R2)
    ∧ ((Aoc19.Op.exec ⟨.R0, .Seti 7⟩ ⟨1, 2, 3, 4, 5, 6⟩).get .R1
      = (⟨1, 2, 3, 4, 5, 6⟩ : Aoc19.Registers).get .R1)
    ∧ ((Aoc21.Op.exec ⟨.R0, .Seti 7⟩ ⟨1, 2, 3, 4, 5, 6⟩).get .R1
      = (⟨1, 2, 3, 4, 5, 6⟩ : Aoc21.Registers).get .R1) :=
  ⟨vm_exec_single_register_frame.1 ⟨.R1, .Seti 7⟩ ⟨1, 2, 3, 4⟩ .R2 (by decide),
   vm_exec_single_register_frame.2.1 ⟨.R0, .Seti 7⟩ ⟨1, 2, 3, 4, 5, 6⟩ .R1
     (by decide),
   vm_exec_single_register_frame.2.2 ⟨.R0, .Seti 7⟩ ⟨1, 2, 3, 4, 5, 6⟩ .R1
     (by decide)⟩

/-- C9: aoc05's `react` returns a fully inert polymer — no two adjacent
units of the result react — and is therefore idempotent. -/
theorem aoc05_react_inert_idempotent (l : List Nat) :
    Aoc05.isInert (Aoc05.react l) = true
    ∧ Aoc05.react (Aoc05.react l) = Aoc05.react l := by
  have hf := aoc05_react_onePass_false l
  refine ⟨aoc05_onePass_false_inert _ hf, ?_⟩
  rw [Aoc05.react_eq (Aoc05.react l), hf]
  simp only [Bool.false_eq_true, if_false]
  exact Aoc05.onePass_false_eq _ hf

/-- C10: aoc16's `OpNumber::new(n)` errors exactly when `15 < n`; every
`n ≤ 15`, negative values included, yields `Ok`, and a negative `n` is
stored as `n as u8`, i.e. `n` modulo 256. -/
theorem aoc16_opnumber_new_spec (n : Int) :
    ((∃ e, Aoc16.OpNumber.new n = .error e) ↔ 15 < n)
    ∧ (n ≤ 15 → Aoc16.OpNumber.new n = .ok (rustCastU8 n))
    ∧ (n < 0 → Aoc16.OpNumber.new n = .ok ((n % 256).toNat)) := by
  unfold Aoc16.OpNumber.new
  refine ⟨?_, fun h => by simp [h], fun h => by simp [rustCastU8]; omega⟩
  constructor
  · rintro ⟨e, he⟩
    by_contra hlt
    simp only [if_pos (by omega : n ≤ 15)] at he
    exact Except.noConfusion he
  · intro h
    refine ⟨"op number is out of bounds", ?_⟩
    simp [if_neg (by omega : ¬ n ≤ 15)]

/-- C10 witness: `OpNumber::new(-1)` succeeds and stores 255. -/
theorem aoc16_opnumber_new_spec_witness :
    Aoc16.OpNumber.new (-1) = .ok 255 := by
  have := (aoc16_opnumber_new_spec (-1)).2.2 (by decide)
  simpa using this
